import Mathlib

/-!
Verification of the Tool-Use Negotiation Protocol of the llm-catan-arena
repository: action identity mapper (src/mcp/action_mapper.py), state
serializer (src/mcp/game_wrapper.py), tool dispatcher (src/mcp/server.py),
and the per-decision loop of the MCP players
(src/players/mcp_based/base_mcp_player.py, openrouter_tools_player.py).

The Python code is shallowly embedded: Python dicts become insertion-ordered
association lists, Python object identity (the id() builtin) becomes an
explicit ref field, exceptions become Except, and the external LLM transport
becomes an explicit script of responses.
-/

namespace CatanArena

/-- A scalar inside a Python tuple value; str() of it is modelled by
pyScalarStr. -/
inductive PyScalar where
  | int (n : Int)
  | str (s : String)
deriving DecidableEq, Repr

/-- str() applied to a tuple element, as done in
action_mapper._descriptive_action_id when extending parts with a tuple. -/
def pyScalarStr : PyScalar → String
  | .int n => toString n
  | .str s => s

/-- A Python value carried in the value attribute of a Catanatron Action.
The branches mirror the isinstance checks of _descriptive_action_id:
int or float, str, tuple; obj stands for any other object (for which the
generator appends nothing). -/
inductive PyVal where
  | int (n : Int)
  | str (s : String)
  | tuple (vs : List PyScalar)
  | obj (s : String)
deriving DecidableEq, Repr

/-- Python str.lower(), used on the action type token (mapping
Char.toLower over the characters, spelled on the character list so that
it evaluates by kernel reduction). -/
def pyLower (s : String) : String := ⟨s.data.map Char.toLower⟩

/-- A Catanatron Action object as seen by the mapper and serializer.
ref models Python object identity (the id() builtin); actionType is
str(action.action_type) when the attribute is present; className is
type(action).__name__; value and color are the optional attributes
(absent or None collapse to none, which the code treats identically);
reprStr is str(action) and strRaises says str(action) raises;
malformed says attribute access on the object raises an exception. -/
structure Action where
  ref : Nat
  actionType : Option String := none
  className : String := "Action"
  value : Option PyVal := none
  color : Option String := none
  reprStr : String := "Action"
  strRaises : Bool := false
  malformed : Bool := false
deriving DecidableEq, Repr

/-- Split a character list on the dot character (Python str.split(".")). -/
def splitDotAux : List Char → List Char → List (List Char)
  | [], cur => [cur.reverse]
  | c :: rest, cur =>
      if c = '.' then cur.reverse :: splitDotAux rest []
      else splitDotAux rest (c :: cur)

/-- Last segment of a dotted token: action_type.split(".")[-1]. -/
def lastDotSegment (s : String) : String :=
  ⟨(splitDotAux s.data []).getLastD s.data⟩

/-- An insertion-ordered association list modelling a Python dict:
inserting an existing key replaces the value in place, a new key is
appended at the end. -/
def alistInsert {α β : Type} [DecidableEq α] (k : α) (v : β) :
    List (α × β) → List (α × β)
  | [] => [(k, v)]
  | (k0, v0) :: rest =>
      if k0 = k then (k, v) :: rest else (k0, v0) :: alistInsert k v rest

/-- Python dict lookup dict.get(k). -/
def alistGet {α β : Type} [DecidableEq α] (k : α) :
    List (α × β) → Option β
  | [] => none
  | (k0, v0) :: rest => if k0 = k then some v0 else alistGet k rest

/-- Python list(dict.keys()) in insertion order. -/
def alistKeys {α β : Type} (l : List (α × β)) : List α := l.map Prod.fst

/-- State of action_mapper.ActionMapper: the current action list and the
two dicts id_to_action and action_to_id (the latter keyed by id(action),
modelled as the ref field). -/
structure ActionMapper where
  use_descriptive_ids : Bool := true
  actions : List Action := []
  id_to_action : List (String × Action) := []
  action_to_id : List (Nat × String) := []
deriving DecidableEq, Repr

namespace ActionMapper

/-- The try-block body of _descriptive_action_id: the candidate id built
from the normalized action type and the value parts, before the uniqueness
suffix.  A malformed action makes the attribute access raise, modelled as
Except.error. -/
def descriptiveCore (action : Action) : Except Unit String :=
  if action.malformed then .error () else
    let actionType :=
      match action.actionType with
      | some t => lastDotSegment t
      | none => action.className
    let actionTypeClean := pyLower actionType
    let valueParts : List String :=
      match action.value with
      | none => []
      | some (.int n) => [toString n]
      | some (.str s) => [pyLower s]
      | some (.tuple vs) => vs.map pyScalarStr
      | some (.obj _) => []
    .ok (String.intercalate "_" (actionTypeClean :: valueParts))

/-- The candidate id of _descriptive_action_id before the suffix step
(total form, defined on non-malformed actions). -/
def candidateId (action : Action) : String :=
  ((descriptiveCore action).toOption).getD ""

/-- _descriptive_action_id: build the candidate; if it already exists in
the dict being built, append the positional index; on any exception fall
back to the positional id. -/
def _descriptive_action_id (action : Action) (index : Nat)
    (idToAction : List (String × Action)) : String :=
  match descriptiveCore action with
  | .error _ => "action_" ++ toString index
  | .ok actionId =>
      if (alistGet actionId idToAction).isSome then
        actionId ++ "_" ++ toString index
      else actionId

/-- _generate_action_id: descriptive id or plain positional id depending
on the use_descriptive_ids flag. -/
def _generate_action_id (m : ActionMapper) (action : Action) (index : Nat)
    (idToAction : List (String × Action)) : String :=
  if m.use_descriptive_ids then _descriptive_action_id action index idToAction
  else "action_" ++ toString index

/-- The loop of set_actions over the enumerated action list: generate the
id of each action against the dict built so far, then insert into both
dicts (i is the enumeration index). -/
def setActionsGo (m : ActionMapper) :
    Nat → List Action → List (String × Action) × List (Nat × String) →
    List (String × Action) × List (Nat × String)
  | _, [], acc => acc
  | i, action :: rest, acc =>
      let actionId := m._generate_action_id action i acc.1
      setActionsGo m (i + 1) rest
        (alistInsert actionId action acc.1, alistInsert action.ref actionId acc.2)

/-- set_actions: reset both dicts, then enumerate the actions and insert
the generated ids. -/
def set_actions (m : ActionMapper) (actions : List Action) : ActionMapper :=
  let dicts := setActionsGo m 0 actions ([], [])
  { m with actions := actions, id_to_action := dicts.1, action_to_id := dicts.2 }

/-- get_action: dict lookup id_to_action.get(action_id). -/
def get_action (m : ActionMapper) (actionId : String) : Option Action :=
  alistGet actionId m.id_to_action

/-- get_action_id: dict lookup action_to_id.get(id(action)). -/
def get_action_id (m : ActionMapper) (action : Action) : Option String :=
  alistGet action.ref m.action_to_id

/-- is_valid_action_id: membership in id_to_action. -/
def is_valid_action_id (m : ActionMapper) (actionId : String) : Bool :=
  (alistGet actionId m.id_to_action).isSome

/-- get_all_action_ids: the keys of id_to_action in insertion order. -/
def get_all_action_ids (m : ActionMapper) : List String :=
  alistKeys m.id_to_action

/-- _safe_action_str: str(action) with fallback to the class name when
string conversion raises. -/
def _safe_action_str (action : Action) : String :=
  if action.strRaises then action.className else action.reprStr

/-- _get_action_type: the action type token without the enum dot
segment, or the class name. -/
def _get_action_type (action : Action) : String :=
  match action.actionType with
  | some t => lastDotSegment t
  | none => action.className

end ActionMapper

/-- JSON values, the shape of every tool result (the Python code builds
dicts and serializes them with json.dumps; the model keeps the structured
value). -/
inductive Json where
  | null
  | bool (b : Bool)
  | num (n : Int)
  | str (s : String)
  | arr (xs : List Json)
  | obj (fields : List (String × Json))

/-- Field lookup in a JSON object. -/
def jsonGet (j : Json) (k : String) : Option Json :=
  match j with
  | .obj fields => alistGet k fields
  | _ => none

/-- A structured error object: a JSON object carrying an error field,
the uniform failure shape of every tool handler. -/
def isErrObj (j : Json) : Bool := (jsonGet j "error").isSome

/-- str(value) for the details dict of get_all_actions_with_ids; tuple
elements are rendered with pyScalarStr. -/
def pyValStr : PyVal → String
  | .int n => toString n
  | .str s => s
  | .tuple vs => "(" ++ String.intercalate ", " (vs.map pyScalarStr) ++ ")"
  | .obj s => s

namespace ActionMapper

/-- _get_action_details: optional color and value attributes as strings;
raises when attribute access on a malformed action raises. -/
def _get_action_details (action : Action) : Except String Json :=
  if action.malformed then .error "details" else
    let withColor : List (String × Json) :=
      match action.color with
      | some c => [("color", .str c)]
      | none => []
    let withValue : List (String × Json) :=
      match action.value with
      | some v => [("value", .str (pyValStr v))]
      | none => []
    .ok (.obj (withColor ++ withValue))

/-- One entry of get_all_actions_with_ids. -/
def actionEntry (actionId : String) (action : Action) : Except String Json := do
  let details ← _get_action_details action
  .ok (.obj [
    ("action_id", .str actionId),
    ("description", .str (_safe_action_str action)),
    ("action_type", .str (_get_action_type action)),
    ("details", details)])

/-- get_all_actions_with_ids: the entries of id_to_action in insertion
order; propagates the exception of a malformed action. -/
def get_all_actions_with_ids (m : ActionMapper) : Except String Json := do
  let entries ← m.id_to_action.mapM fun kv => actionEntry kv.1 kv.2
  .ok (.arr entries)

end ActionMapper

/-- A value of the Catanatron player_state dict: the numeric counters and
the boolean flags. -/
inductive PSVal where
  | int (n : Int)
  | bool (b : Bool)
deriving DecidableEq, Repr

/-- player_state.get(key, default). -/
def psGet (ps : List (String × PSVal)) (k : String) (d : PSVal) : PSVal :=
  (alistGet k ps).getD d

/-- A PSVal as a Python int (bool counts as 0 or 1), for sums and
subtractions. -/
def psvalInt : PSVal → Int
  | .int n => n
  | .bool b => if b then 1 else 0

/-- A PSVal as JSON. -/
def psvalJson : PSVal → Json
  | .int n => .num n
  | .bool b => .bool b

/-- The board attribute of the engine state; each sub-attribute may be
absent on the engine build (getattr with default, or hasattr guard). -/
structure PyBoard where
  settlements : Option (List (String × String)) := none
  cities : Option (List (String × String)) := none
  roads : Option (List (String × String)) := none
  robber_tile : Option String := none
deriving DecidableEq, Repr

/-- The engine game.state object: color_to_index, the flat player_state
dict, and the optional attributes actions, development_deck and board
(none models an absent attribute). -/
structure PyState where
  color_to_index : List (String × Nat) := []
  player_state : List (String × PSVal) := []
  actions : Option (List String) := some []
  development_deck : Option Nat := none
  board : Option PyBoard := none
deriving DecidableEq, Repr

/-- The engine game object: optional id attribute and the state. -/
structure PyGame where
  gameId : Option String := none
  state : PyState := {}
deriving DecidableEq, Repr

/-- game_wrapper.CatanatronGameWrapper: the game, the viewing color and
its index (the constructor raises KeyError when the color is unknown,
handled at the construction site). -/
structure GameWrapper where
  game : PyGame
  player_color : String
  player_index : Nat
deriving DecidableEq, Repr

namespace GameWrapper

/-- _get_dev_cards: the five development-card counters and their total. -/
def _get_dev_cards (pfx : String) (ps : List (String × PSVal)) : Json :=
  let knight := psGet ps (pfx ++ "KNIGHT_IN_HAND") (.int 0)
  let yop := psGet ps (pfx ++ "YEAR_OF_PLENTY_IN_HAND") (.int 0)
  let monopoly := psGet ps (pfx ++ "MONOPOLY_IN_HAND") (.int 0)
  let roadBuilding := psGet ps (pfx ++ "ROAD_BUILDING_IN_HAND") (.int 0)
  let vp := psGet ps (pfx ++ "VICTORY_POINT_IN_HAND") (.int 0)
  .obj [
    ("knight", psvalJson knight),
    ("year_of_plenty", psvalJson yop),
    ("monopoly", psvalJson monopoly),
    ("road_building", psvalJson roadBuilding),
    ("victory_point", psvalJson vp),
    ("total", .num (psvalInt knight + psvalInt yop + psvalInt monopoly +
      psvalInt roadBuilding + psvalInt vp))]

/-- _get_player_state: the full per-player section of the snapshot. -/
def _get_player_state (w : GameWrapper) (playerIndex : Nat) : Json :=
  let pfx := "P" ++ toString playerIndex ++ "_"
  let ps := w.game.state.player_state
  let wood := psGet ps (pfx ++ "WOOD_IN_HAND") (.int 0)
  let brick := psGet ps (pfx ++ "BRICK_IN_HAND") (.int 0)
  let sheep := psGet ps (pfx ++ "SHEEP_IN_HAND") (.int 0)
  let wheat := psGet ps (pfx ++ "WHEAT_IN_HAND") (.int 0)
  let ore := psGet ps (pfx ++ "ORE_IN_HAND") (.int 0)
  let settlementsAvail := psGet ps (pfx ++ "SETTLEMENTS_AVAILABLE") (.int 5)
  let citiesAvail := psGet ps (pfx ++ "CITIES_AVAILABLE") (.int 4)
  let roadsAvail := psGet ps (pfx ++ "ROADS_AVAILABLE") (.int 15)
  .obj [
    ("resources", .obj [
      ("wood", psvalJson wood),
      ("brick", psvalJson brick),
      ("sheep", psvalJson sheep),
      ("wheat", psvalJson wheat),
      ("ore", psvalJson ore)]),
    ("total_resources", .num (psvalInt wood + psvalInt brick + psvalInt sheep +
      psvalInt wheat + psvalInt ore)),
    ("victory_points", psvalJson (psGet ps (pfx ++ "ACTUAL_VICTORY_POINTS") (.int 0))),
    ("public_victory_points", psvalJson (psGet ps (pfx ++ "VICTORY_POINTS") (.int 0))),
    ("buildings", .obj [
      ("settlements_built", .num (5 - psvalInt settlementsAvail)),
      ("cities_built", .num (4 - psvalInt citiesAvail)),
      ("roads_built", .num (15 - psvalInt roadsAvail)),
      ("settlements_available", psvalJson settlementsAvail),
      ("cities_available", psvalJson citiesAvail),
      ("roads_available", psvalJson roadsAvail)]),
    ("development_cards", _get_dev_cards pfx ps),
    ("has_longest_road", psvalJson (psGet ps (pfx ++ "HAS_ROAD") (.bool false))),
    ("has_largest_army", psvalJson (psGet ps (pfx ++ "HAS_ARMY") (.bool false))),
    ("knights_played", psvalJson (psGet ps (pfx ++ "PLAYED_KNIGHT") (.int 0))),
    ("longest_road_length", psvalJson (psGet ps (pfx ++ "LONGEST_ROAD_LENGTH") (.int 0)))]

/-- _get_opponents_state: the reduced public view of every other color. -/
def _get_opponents_state (w : GameWrapper) : Json :=
  let ps := w.game.state.player_state
  .arr ((w.game.state.color_to_index.filter
      fun ci => ci.1 ≠ w.player_color).map fun ci =>
    let pfx := "P" ++ toString ci.2 ++ "_"
    .obj [
      ("color", .str ci.1),
      ("victory_points", psvalJson (psGet ps (pfx ++ "VICTORY_POINTS") (.int 0))),
      ("resource_count", .num (
        psvalInt (psGet ps (pfx ++ "WOOD_IN_HAND") (.int 0)) +
        psvalInt (psGet ps (pfx ++ "BRICK_IN_HAND") (.int 0)) +
        psvalInt (psGet ps (pfx ++ "SHEEP_IN_HAND") (.int 0)) +
        psvalInt (psGet ps (pfx ++ "WHEAT_IN_HAND") (.int 0)) +
        psvalInt (psGet ps (pfx ++ "ORE_IN_HAND") (.int 0)))),
      ("development_card_count", .num (
        psvalInt (psGet ps (pfx ++ "KNIGHT_IN_HAND") (.int 0)) +
        psvalInt (psGet ps (pfx ++ "YEAR_OF_PLENTY_IN_HAND") (.int 0)) +
        psvalInt (psGet ps (pfx ++ "MONOPOLY_IN_HAND") (.int 0)) +
        psvalInt (psGet ps (pfx ++ "ROAD_BUILDING_IN_HAND") (.int 0)) +
        psvalInt (psGet ps (pfx ++ "VICTORY_POINT_IN_HAND") (.int 0)))),
      ("buildings", .obj [
        ("settlements", .num (5 - psvalInt (psGet ps (pfx ++ "SETTLEMENTS_AVAILABLE") (.int 5)))),
        ("cities", .num (4 - psvalInt (psGet ps (pfx ++ "CITIES_AVAILABLE") (.int 4)))),
        ("roads", .num (15 - psvalInt (psGet ps (pfx ++ "ROADS_AVAILABLE") (.int 15))))]),
      ("has_longest_road", psvalJson (psGet ps (pfx ++ "HAS_ROAD") (.bool false))),
      ("has_largest_army", psvalJson (psGet ps (pfx ++ "HAS_ARMY") (.bool false))),
      ("knights_played", psvalJson (psGet ps (pfx ++ "PLAYED_KNIGHT") (.int 0)))])

/-- _get_dev_cards_remaining: deck length behind a hasattr guard, 0 when
the attribute is absent. -/
def _get_dev_cards_remaining (w : GameWrapper) : Int :=
  match w.game.state.development_deck with
  | some n => Int.ofNat n
  | none => 0

/-- _serialize_buildings and _serialize_roads: getattr with an empty-dict
default, so an absent attribute yields an empty list, never an error. -/
def serializePlacements (d : Option (List (String × String))) (key : String) : Json :=
  .arr ((d.getD []).map fun nc => .obj [(key, .str nc.1), ("color", .str nc.2)])

/-- _get_robber_position: hasattr guard, None when absent. -/
def _get_robber_position (b : PyBoard) : Json :=
  match b.robber_tile with
  | some t => .str t
  | none => .null

/-- _get_board_state: direct access to state.board (raises AttributeError
when the attribute is absent on this engine build), then the four
sub-sections with their defaults. -/
def _get_board_state (w : GameWrapper) : Except String Json :=
  match w.game.state.board with
  | none => .error "board"
  | some b => .ok (.obj [
      ("settlements", serializePlacements b.settlements "node_id"),
      ("cities", serializePlacements b.cities "node_id"),
      ("roads", serializePlacements b.roads "edge_id"),
      ("robber_tile", _get_robber_position b)])

/-- _get_recent_actions: the last 10 log entries behind a hasattr guard. -/
def _get_recent_actions (w : GameWrapper) : List String :=
  match w.game.state.actions with
  | some l => l.drop (l.length - 10)
  | none => []

/-- get_state: the snapshot dict.  turn_number reads state.actions without
a guard, and the board section reads state.board without a guard, so a
missing attribute there raises (AttributeError), surfaced as Except.error;
the other sub-sections default when their source is absent. -/
def get_state (w : GameWrapper) (includeBoard includeHistory : Bool) :
    Except String Json := do
  let actionsLog ← match w.game.state.actions with
    | some l => Except.ok l
    | none => Except.error "actions"
  let base : List (String × Json) := [
    ("game_id", .str (w.game.gameId.getD "unknown")),
    ("turn_number", .num (Int.ofNat actionsLog.length)),
    ("your_color", .str w.player_color),
    ("your_state", w._get_player_state w.player_index),
    ("opponents", w._get_opponents_state),
    ("development_cards_remaining", .num w._get_dev_cards_remaining)]
  let withBoard ← if includeBoard then do
      let b ← w._get_board_state
      pure (base ++ [("board", b)])
    else pure base
  let withHistory :=
    if includeHistory then
      withBoard ++ [("recent_actions", .arr (w._get_recent_actions.map .str))]
    else withBoard
  pure (.obj withHistory)

end GameWrapper

/-- The input dict of a tool call, with the defaults the handlers apply
(tool_input.get("include_board", False) etc.; action_id absent is none). -/
structure ToolInput where
  include_board : Bool := false
  include_history : Bool := false
  action_id : Option String := none
deriving DecidableEq, Repr

/-- server.CatanatronMCPServer: the per-game dispatcher holding the
optional decision context (game wrapper), the action mapper and the
pending selection. -/
structure MCPServer where
  game_id : String := "catan_game"
  game_wrapper : Option GameWrapper := none
  action_mapper : ActionMapper := {}
  selected_action_id : Option String := none
deriving DecidableEq, Repr

namespace MCPServer

/-- set_game_context: build the wrapper (its constructor raises KeyError
when the color is not in color_to_index, in which case the server is left
unchanged), replace the mapping and reset the pending selection. -/
def set_game_context (srv : MCPServer) (game : PyGame) (playerColor : String)
    (playableActions : List Action) : Except String MCPServer :=
  match alistGet playerColor game.state.color_to_index with
  | none => .error "color_to_index"
  | some idx => .ok { srv with
      game_wrapper := some ⟨game, playerColor, idx⟩,
      action_mapper := srv.action_mapper.set_actions playableActions,
      selected_action_id := none }

/-- get_selected_action: resolve the pending id through the mapper; the
Python truthiness test makes an empty-string id count as no selection. -/
def get_selected_action (srv : MCPServer) : Option Action :=
  match srv.selected_action_id with
  | some actionId => if actionId = "" then none else srv.action_mapper.get_action actionId
  | none => none

/-- clear_context: drop the wrapper and the pending selection. -/
def clear_context (srv : MCPServer) : MCPServer :=
  { srv with game_wrapper := none, selected_action_id := none }

/-- _handle_get_game_state: serialize, catching any exception into a
structured error object. -/
def _handle_get_game_state (srv : MCPServer) (w : GameWrapper)
    (input : ToolInput) : Json × MCPServer :=
  match w.get_state input.include_board input.include_history with
  | .ok j => (j, srv)
  | .error e => (.obj [("error", .str ("Failed to get game state: " ++ e))], srv)

/-- _handle_get_valid_actions: the id list with descriptions, catching any
exception into a structured error object. -/
def _handle_get_valid_actions (srv : MCPServer) : Json × MCPServer :=
  match srv.action_mapper.get_all_actions_with_ids with
  | .ok (.arr entries) =>
      (.obj [("num_actions", .num (Int.ofNat entries.length)),
             ("actions", .arr entries)], srv)
  | .ok j => (.obj [("num_actions", .num 0), ("actions", j)], srv)
  | .error e => (.obj [("error", .str ("Failed to get valid actions: " ++ e))], srv)

/-- _handle_select_action: reject a missing or empty id, reject an id not
in the mapping (naming the valid set), otherwise record the pending
selection and echo a confirmation. -/
def _handle_select_action (srv : MCPServer) (input : ToolInput) :
    Json × MCPServer :=
  match input.action_id with
  | none =>
      (.obj [("error", .str "action_id is required"),
             ("example", .obj [("action_id", .str "build_settlement_42")])], srv)
  | some actionId =>
      if actionId = "" then
        (.obj [("error", .str "action_id is required"),
               ("example", .obj [("action_id", .str "build_settlement_42")])], srv)
      else if ¬ srv.action_mapper.is_valid_action_id actionId then
        (.obj [("error", .str ("Invalid action_id: " ++ actionId)),
               ("valid_action_ids",
                 .arr (srv.action_mapper.get_all_action_ids.map .str))], srv)
      else
        let action := (srv.action_mapper.get_action actionId).getD {ref := 0}
        (.obj [("success", .bool true),
               ("action_id", .str actionId),
               ("action_description", .str (ActionMapper._safe_action_str action)),
               ("message", .str "Action selected successfully. The game engine will execute it.")],
         { srv with selected_action_id := some actionId })

/-- handle_tool_call: the no-context guard, then dispatch on the tool
name; an unknown name yields a structured error listing the three tools. -/
def handle_tool_call (srv : MCPServer) (toolName : String)
    (input : ToolInput) : Json × MCPServer :=
  match srv.game_wrapper with
  | none =>
      (.obj [("error", .str "No game context set. Server not initialized for this decision.")], srv)
  | some w =>
      if toolName = "get_game_state" then srv._handle_get_game_state w input
      else if toolName = "get_valid_actions" then srv._handle_get_valid_actions
      else if toolName = "select_action" then srv._handle_select_action input
      else
        (.obj [("error", .str ("Unknown tool: " ++ toolName)),
               ("available_tools", .arr [.str "get_game_state",
                 .str "get_valid_actions", .str "select_action"])], srv)

/-- Whether a select_action call with this input would be accepted by the
dispatcher in this server state: an active context and a non-empty id that
is in the current mapping.  Since tool calls never change the mapping or
the context, acceptance of a call is determined by the state at context
set-up. -/
def selectAccepted (srv : MCPServer) (input : ToolInput) : Bool :=
  srv.game_wrapper.isSome &&
    match input.action_id with
    | some actionId =>
        if actionId = "" then false
        else srv.action_mapper.is_valid_action_id actionId
    | none => false

end MCPServer

/-- A tool call as issued by the agent: tool name and input. -/
structure ToolCall where
  name : String
  input : ToolInput
deriving DecidableEq, Repr

/-- Run a list of tool calls against the server in order (the agent side
of one decision can touch the server only through handle_tool_call). -/
def runCalls (srv : MCPServer) : List ToolCall → MCPServer
  | [] => srv
  | c :: rest => runCalls (srv.handle_tool_call c.name c.input).2 rest

/-- One response of the OpenRouter transport, as consumed by
openrouter_tools_player.query_llm_with_mcp: either a message with its tool
calls, content and usage, or the transport failing every retry
(_make_request_with_retry returning None). -/
inductive ApiResponse where
  | reply (toolCalls : List ToolCall) (content : Option String)
      (promptTokens completionTokens : Nat) (finishReason : String)
  | transportFailure

/-- The per-round tool-call execution of the players: run each call in
order, and after executing a call named select_action stop at once,
skipping the remaining calls of the round; the Bool reports whether that
early stop happened.  The stop tests only the tool name, not whether the
dispatcher accepted the selection. -/
def processCalls (srv : MCPServer) : List ToolCall → MCPServer × Bool
  | [] => (srv, false)
  | c :: rest =>
      let srv1 := (srv.handle_tool_call c.name c.input).2
      if c.name = "select_action" then (srv1, true)
      else processCalls srv1 rest

/-- What one decision returns to its owner from the query layer. -/
structure QueryResult where
  text : String
  inputTokens : Nat
  outputTokens : Nat
  server : MCPServer
  roundsUsed : Nat
deriving Repr

/-- The round loop of openrouter_tools_player.query_llm_with_mcp: up to
the fuel many rounds, a transport failure returns the API Error triple
with zero usage, a response with tool calls is executed (returning at
once when a select_action call was executed), and a response with no tool
calls breaks the loop. -/
def queryLoop (script : Nat → ApiResponse) (srv : MCPServer) :
    Nat → Nat → Nat → Nat → QueryResult
  | _turn, 0, inTok, outTok =>
      { text := "", inputTokens := inTok, outputTokens := outTok,
        server := srv, roundsUsed := 10 }
  | turn, fuel + 1, inTok, outTok =>
      match script turn with
      | .transportFailure =>
          { text := "API Error", inputTokens := 0, outputTokens := 0,
            server := srv, roundsUsed := turn }
      | .reply calls content pt ct _finishReason =>
          let inTok1 := inTok + pt
          let outTok1 := outTok + ct
          if calls = [] then
            { text := content.getD "No response", inputTokens := inTok1,
              outputTokens := outTok1, server := srv, roundsUsed := turn + 1 }
          else
            let res := processCalls srv calls
            if res.2 then
              { text := match content with
                  | some s => if s = "" then "Action selected" else s
                  | none => "Action selected",
                inputTokens := inTok1, outputTokens := outTok1,
                server := res.1, roundsUsed := turn + 1 }
            else queryLoop script res.1 (turn + 1) fuel inTok1 outTok1

/-- query_llm_with_mcp of the OpenRouter player: the round loop started
on a fresh conversation with max_turns = 10 and zero usage. -/
def query_llm_with_mcp (script : Nat → ApiResponse) (srv : MCPServer) :
    QueryResult :=
  queryLoop script srv 0 10 0 0

/-- An abstract run of the subclass query method inside decide: the tool
calls it issues against the dispatcher in order, whether it raises, and
the triple it returns otherwise.  Both concrete players touch the server
only through handle_tool_call, so every behavior they can exhibit is an
instance. -/
structure QueryBehavior where
  calls : List ToolCall
  raises : Bool := false
  text : String := ""
  tokens : Nat := 0

/-- The per-player mutable state of BaseMCPPlayer that decide touches
(total_cost is a float mirror of total_tokens and is not modelled). -/
structure PlayerState where
  color : String
  total_tokens : Nat := 0
  move_count : Nat := 0
  recent_moves : List String := []
deriving DecidableEq, Repr

/-- recent_moves.append followed by trimming to the last five entries. -/
def pushRecent (p : PlayerState) (s : String) : PlayerState :=
  let l := p.recent_moves ++ [s]
  { p with recent_moves := if 5 < l.length then l.drop (l.length - 5) else l }

/-- _fallback_action: random.choice over the supplied list, with the
random draw made explicit as the index r (uniform over the list when r
is uniform); none models the IndexError random.choice raises on an empty
list. -/
def _fallback_action (moves : List Action) (r : Nat) : Option Action :=
  if moves.isEmpty then none else moves.get? (r % moves.length)

/-- The observable outcome of one BaseMCPPlayer.decide call: the value
returned to the engine (none when the IndexError of an empty fallback
escapes), the updated player and server state, plus ghost instrumentation
recording how many times clear_context ran and whether the fallback
branch was taken. -/
structure DecideRun where
  result : Option Action
  player : PlayerState
  server : MCPServer
  clearCalls : Nat
  fellBack : Bool

/-- BaseMCPPlayer.decide: set the context, run the subclass query, update
the usage counters, read the pending selection back, fall back to a
random legal move when it is empty, clear the context and return.  Any
exception in the body lands in the except branch, which returns a
fallback move without clearing the context. -/
def decide (p : PlayerState) (srv : MCPServer) (game : PyGame)
    (moves : List Action) (q : QueryBehavior) (r : Nat) : DecideRun :=
  match srv.set_game_context game p.color moves with
  | .error _ =>
      { result := _fallback_action moves r, player := p, server := srv,
        clearCalls := 0, fellBack := true }
  | .ok srv1 =>
      let srv2 := runCalls srv1 q.calls
      if q.raises then
        { result := _fallback_action moves r, player := p, server := srv2,
          clearCalls := 0, fellBack := true }
      else
        let p1 := { p with
          total_tokens := p.total_tokens + q.tokens
          move_count := p.move_count + 1 }
        match srv2.get_selected_action with
        | some a =>
            { result := some a,
              player := pushRecent p1 (ActionMapper._safe_action_str a),
              server := srv2.clear_context, clearCalls := 1, fellBack := false }
        | none =>
            match _fallback_action moves r with
            | none =>
                { result := none, player := p1, server := srv2,
                  clearCalls := 0, fellBack := true }
            | some a =>
                { result := some a,
                  player := pushRecent p1 (ActionMapper._safe_action_str a),
                  server := srv2.clear_context, clearCalls := 1, fellBack := true }

/-! ### Concrete actions used by witnesses and counterexamples -/

/-- An END_TURN-typed action carrying the integer value 2, whose candidate
id end_turn_2 collides with the suffixed id of a later duplicate. -/
def endTurnVal2 : Action :=
  { ref := 0, actionType := some "ActionType.END_TURN", value := some (.int 2) }

/-- A plain END_TURN action. -/
def endTurnA : Action := { ref := 1, actionType := some "ActionType.END_TURN" }

/-- A second plain END_TURN action (a distinct engine object). -/
def endTurnB : Action := { ref := 2, actionType := some "ActionType.END_TURN" }

/-- A BUILD_SETTLEMENT action at node 42. -/
def buildSettlement42 : Action :=
  { ref := 3, actionType := some "ActionType.BUILD_SETTLEMENT",
    value := some (.int 42), color := some "Color.RED",
    reprStr := "Action(RED BUILD_SETTLEMENT 42)" }

/-- An END_TURN action from a later decision (a fresh engine object of the
same shape as endTurnA). -/
def endTurnNew : Action := { ref := 5, actionType := some "ActionType.END_TURN" }

/-- An action whose attribute access raises. -/
def brokenAction : Action := { ref := 9, malformed := true }

/-- A demo game with two colors and a minimal engine state. -/
def demoGame : PyGame :=
  { gameId := some "demo",
    state := { color_to_index := [("RED", 0), ("BLUE", 1)],
               player_state := [("P0_WOOD_IN_HAND", .int 2)],
               actions := some [], development_deck := some 10,
               board := some {} } }

/-- A demo game whose engine state has no board attribute. -/
def noBoardGame : PyGame :=
  { gameId := some "demo",
    state := { color_to_index := [("RED", 0)], player_state := [],
               actions := some [], development_deck := none, board := none } }

/-- A server whose context was set for RED on the demo game with the
single legal move endTurnA (id end_turn). -/
def srvDemo : MCPServer :=
  { game_wrapper := some { game := demoGame, player_color := "RED", player_index := 0 },
    action_mapper := ActionMapper.set_actions {} [endTurnA],
    selected_action_id := none }

/-- A server whose context was set on the board-less game. -/
def srvNoBoard : MCPServer :=
  { game_wrapper := some { game := noBoardGame, player_color := "RED", player_index := 0 },
    action_mapper := ActionMapper.set_actions {} [endTurnA],
    selected_action_id := none }

/-- A transport script whose first round issues a select_action with an
invalid id and whose second round would issue a valid one. -/
def rejectScript : Nat → ApiResponse
  | 0 => .reply [{ name := "select_action", input := { action_id := some "bogus_id" } }]
      (some "first try") 5 3 "tool_calls"
  | 1 => .reply [{ name := "select_action", input := { action_id := some "end_turn" } }]
      (some "second try") 5 3 "tool_calls"
  | _ => .reply [] (some "done") 1 1 "stop"

/-- The demo player. -/
def pRed : PlayerState := { color := "RED" }

/-- A query behavior that raises (transport blew up inside the subclass
query). -/
def qRaise : QueryBehavior := { calls := [], raises := true }

/-- A query behavior that selects end_turn. -/
def qSelect : QueryBehavior :=
  { calls := [{ name := "select_action", input := { action_id := some "end_turn" } }],
    tokens := 10 }

/-- A query behavior that never selects. -/
def qNothing : QueryBehavior := { calls := [] }

/-! ### Association-list lemmas -/

section AListLemmas

variable {α β : Type} [DecidableEq α]

theorem alistGet_insert (k0 : α) (v0 : β) (l : List (α × β)) (k : α) :
    alistGet k (alistInsert k0 v0 l) =
      if k0 = k then some v0 else alistGet k l := by
  induction l with
  | nil => simp [alistInsert, alistGet]
  | cons hd tl ih =>
      obtain ⟨k1, v1⟩ := hd
      by_cases h10 : k1 = k0
      · subst h10
        simp only [alistInsert, if_pos rfl, alistGet]
        by_cases hk : k1 = k <;> simp [hk]
      · simp only [alistInsert, if_neg h10, alistGet, ih]
        by_cases h1k : k1 = k
        · subst h1k
          have h01 : ¬ k0 = k1 := fun h => h10 h.symm
          simp [h01]
        · simp [h1k]

theorem alistInsert_of_not_mem (k0 : α) (v0 : β) (l : List (α × β))
    (h : alistGet k0 l = none) : alistInsert k0 v0 l = l ++ [(k0, v0)] := by
  induction l with
  | nil => simp [alistInsert]
  | cons hd tl ih =>
      obtain ⟨k1, v1⟩ := hd
      simp only [alistGet] at h
      by_cases h1 : k1 = k0
      · simp [if_pos h1] at h
      · simp only [alistInsert, if_neg h1, List.cons_append]
        rw [ih (by simpa [if_neg h1] using h)]

theorem alistGet_append (k : α) (l1 l2 : List (α × β)) :
    alistGet k (l1 ++ l2) =
      match alistGet k l1 with
      | some v => some v
      | none => alistGet k l2 := by
  induction l1 with
  | nil => simp [alistGet]
  | cons hd tl ih =>
      obtain ⟨k1, v1⟩ := hd
      by_cases h1 : k1 = k
      · simp [alistGet, if_pos h1]
      · simp [alistGet, if_neg h1, ih]

theorem alistGet_map_of_nodup {γ : Type} (f : γ → α) (g : γ → β)
    (l : List γ) (a : γ) (hn : (l.map f).Nodup) (ha : a ∈ l) :
    alistGet (f a) (l.map fun x => (f x, g x)) = some (g a) := by
  induction l with
  | nil => cases ha
  | cons hd tl ih =>
      simp only [List.map_cons, List.nodup_cons] at hn
      by_cases hfa : f hd = f a
      · have : a = hd := by
          rcases List.mem_cons.mp ha with h | h
          · exact h.symm ▸ rfl
          · exact absurd (hfa ▸ List.mem_map_of_mem f h) hn.1
        subst this
        simp [alistGet, if_pos hfa, hfa]
      · have ha' : a ∈ tl := by
          rcases List.mem_cons.mp ha with h | h
          · exact absurd (h ▸ rfl) hfa
          · exact h
        simp only [List.map_cons, alistGet, if_neg hfa]
        exact ih hn.2 ha'

end AListLemmas

/-! ### set_actions fold invariants -/

namespace ActionMapper

/-- Every value reachable through id_to_action after the set_actions loop
satisfies any predicate holding on the accumulator values and on the
remaining actions. -/
theorem setActionsGo_values (m : ActionMapper) (P : Action → Prop) :
    ∀ (l : List Action) (i : Nat)
      (acc : List (String × Action) × List (Nat × String)),
      (∀ k v, alistGet k acc.1 = some v → P v) → (∀ a ∈ l, P a) →
      ∀ k v, alistGet k (setActionsGo m i l acc).1 = some v → P v := by
  intro l
  induction l with
  | nil => intro i acc hacc _ k v h; exact hacc k v h
  | cons hd tl ih =>
      intro i acc hacc hl k v h
      refine ih (i + 1) _ ?_ (fun a ha => hl a (List.mem_cons_of_mem hd ha)) k v h
      intro k1 v1 h1
      rw [alistGet_insert] at h1
      by_cases hk : m._generate_action_id hd i acc.1 = k1
      · rw [if_pos hk] at h1
        exact (Option.some_inj.mp h1) ▸ hl hd (List.mem_cons_self hd tl)
      · rw [if_neg hk] at h1
        exact hacc k1 v1 h1

/-- Every action of the list (and every key already present) has an entry
in action_to_id after the set_actions loop. -/
theorem setActionsGo_ref_some (m : ActionMapper) (a : Action) :
    ∀ (l : List Action) (i : Nat)
      (acc : List (String × Action) × List (Nat × String)),
      (a ∈ l ∨ (alistGet a.ref acc.2).isSome) →
      (alistGet a.ref (setActionsGo m i l acc).2).isSome := by
  intro l
  induction l with
  | nil =>
      intro i acc h
      rcases h with h | h
      · cases h
      · exact h
  | cons hd tl ih =>
      intro i acc h
      refine ih (i + 1) _ ?_
      rcases h with h | h
      · rcases List.mem_cons.mp h with h | h
        · right
          subst h
          simp [alistGet_insert]
        · left; exact h
      · right
        rw [alistGet_insert]
        by_cases hk : hd.ref = a.ref
        · simp [hk]
        · simpa [hk] using h

/-- When the pending candidate ids are duplicate-free, not yet present in
the accumulator, generated from well-formed actions with descriptive ids
on, and the refs are fresh, the loop appends exactly the candidate
entries in order. -/
theorem setActionsGo_of_nodup (m : ActionMapper) (hdesc : m.use_descriptive_ids = true) :
    ∀ (l : List Action) (i : Nat)
      (acc : List (String × Action) × List (Nat × String)),
      (∀ a ∈ l, a.malformed = false) →
      (l.map candidateId).Nodup →
      (∀ a ∈ l, alistGet (candidateId a) acc.1 = none) →
      setActionsGo m i l acc =
        (acc.1 ++ l.map fun a => (candidateId a, a),
         (l.map fun a => (a.ref, candidateId a)).foldl
           (fun d kv => alistInsert kv.1 kv.2 d) acc.2) := by
  intro l
  induction l with
  | nil => intro i acc _ _ _; simp [setActionsGo]
  | cons hd tl ih =>
      intro i acc hwf hnd hfresh
      have hwf0 : hd.malformed = false := hwf hd (List.mem_cons_self hd tl)
      have hcore : descriptiveCore hd = .ok (candidateId hd) := by
        simp [descriptiveCore, hwf0, candidateId, Except.toOption]
      have hid : m._generate_action_id hd i acc.1 = candidateId hd := by
        simp only [_generate_action_id, if_pos hdesc, _descriptive_action_id, hcore]
        rw [hfresh hd (List.mem_cons_self hd tl)]
        simp
      simp only [setActionsGo, hid]
      rw [alistInsert_of_not_mem _ _ _ (hfresh hd (List.mem_cons_self hd tl))]
      rw [ih (i + 1) _ (fun a ha => hwf a (List.mem_cons_of_mem hd ha))
        ((List.nodup_cons.mp (by simpa using hnd)).2) ?_]
      · simp
      · intro a ha
        rw [alistGet_append]
        rw [hfresh a (List.mem_cons_of_mem hd ha)]
        have hne : candidateId hd ≠ candidateId a := by
          intro hEq
          exact (List.nodup_cons.mp (by simpa using hnd)).1
            (hEq ▸ List.mem_map_of_mem candidateId ha)
        simp [alistGet, hne]

end ActionMapper


/-- Folding alistInsert over entries whose keys are duplicate-free and
absent from the accumulator appends them in order. -/
theorem alistFoldlInsert_of_fresh {α β : Type} [DecidableEq α] :
    ∀ (l : List (α × β)) (acc : List (α × β)),
      (∀ kv ∈ l, alistGet kv.1 acc = none) → (l.map Prod.fst).Nodup →
      l.foldl (fun d kv => alistInsert kv.1 kv.2 d) acc = acc ++ l := by
  intro l
  induction l with
  | nil => intro acc _ _; simp
  | cons hd tl ih =>
      intro acc hfr hnd
      simp only [List.foldl_cons]
      rw [alistInsert_of_not_mem _ _ _ (hfr hd (List.mem_cons_self hd tl))]
      rw [ih (acc ++ [(hd.1, hd.2)]) ?_ ((List.nodup_cons.mp (by simpa using hnd)).2)]
      · simp
      · intro kv hkv
        rw [alistGet_append, hfr kv (List.mem_cons_of_mem hd hkv)]
        have hne : hd.1 ≠ kv.1 := by
          intro hEq
          exact (List.nodup_cons.mp (by simpa using hnd)).1
            (hEq ▸ List.mem_map_of_mem Prod.fst hkv)
        simp [alistGet, hne]


/-! ### Claims about the Action Identity Mapper -/

/-- C4, counterexample: with three END_TURN moves where the first carries
the value 2, the suffix step of _descriptive_action_id produces the id
end_turn_2 for the third move, which collides with the candidate id of
the first move and overwrites its entry: two distinct moves share one id,
only two ids exist for three moves, and resolving the id of the first
move yields the third move.  So the claimed injectivity does not hold without a
precondition on the discriminators. -/
theorem claim_C4_counterexample :
    (ActionMapper.set_actions {} [endTurnVal2, endTurnA, endTurnB]).get_action_id
        endTurnVal2 = some "end_turn_2" ∧
    (ActionMapper.set_actions {} [endTurnVal2, endTurnA, endTurnB]).get_action_id
        endTurnB = some "end_turn_2" ∧
    endTurnVal2 ≠ endTurnB ∧
    (ActionMapper.set_actions {} [endTurnVal2, endTurnA, endTurnB]).get_action
        "end_turn_2" = some endTurnB ∧
    (ActionMapper.set_actions {} [endTurnVal2, endTurnA, endTurnB]).get_all_action_ids.length
        = 2 := by
  decide

/-- C4, amended: for every list passed to set_actions the mappings are
total (every listed move has an id) and every id resolves to a move of the
list; but distinct moves need not receive distinct ids (and distinct ids
need not resolve to distinct moves) when a candidate id collides with an
already-suffixed id, as the counterexample shows. -/
theorem claim_C4_amended (m : ActionMapper) (moves : List Action) (a : Action) :
    (a ∈ moves → (m.set_actions moves).get_action_id a ≠ none) ∧
    (∀ actionId b, (m.set_actions moves).get_action actionId = some b → b ∈ moves) := by
  constructor
  · intro ha hnone
    have := ActionMapper.setActionsGo_ref_some m a moves 0 ([], []) (Or.inl ha)
    rw [ActionMapper.get_action_id, ActionMapper.set_actions] at hnone
    simp only [hnone, Option.isSome_none] at this
    cases this
  · intro actionId b hb
    refine ActionMapper.setActionsGo_values m (· ∈ moves) moves 0 ([], [])
      ?_ (fun x hx => hx) actionId b ?_
    · intro k v h; cases h
    · exact hb

/-- C4, witness for the amended theorem at a concrete mapper and list. -/
theorem claim_C4_amended_witness :
    (ActionMapper.set_actions {} [endTurnA]).get_action_id endTurnA ≠ none ∧
    ((ActionMapper.set_actions {} [endTurnA]).get_action "end_turn" = some endTurnA →
      endTurnA ∈ [endTurnA]) :=
  ⟨(claim_C4_amended {} [endTurnA] endTurnA).1 (by decide),
   fun h => (claim_C4_amended {} [endTurnA] endTurnA).2 "end_turn" endTurnA h⟩

/-- C5: for a move list whose candidate ids (type plus discriminator) are
duplicate-free, built from well-formed moves under descriptive ids, with
engine object identity faithful (equal refs only for equal list entries),
set_actions produces exactly as many distinct ids as moves and resolving
the id of each move returns that move itself. -/
theorem claim_C5 (m : ActionMapper) (moves : List Action)
    (hdesc : m.use_descriptive_ids = true)
    (hwf : ∀ a ∈ moves, a.malformed = false)
    (hnd : (moves.map ActionMapper.candidateId).Nodup)
    (hinj : ∀ a ∈ moves, ∀ b ∈ moves, a.ref = b.ref → a = b) :
    (m.set_actions moves).get_all_action_ids.length = moves.length ∧
    (m.set_actions moves).get_all_action_ids.Nodup ∧
    ∀ a ∈ moves, ∃ actionId,
      (m.set_actions moves).get_action_id a = some actionId ∧
      (m.set_actions moves).get_action actionId = some a := by
  have hmoves_nd : moves.Nodup := List.Nodup.of_map _ hnd
  have hrefs_nd : (moves.map Action.ref).Nodup :=
    List.Nodup.map_on hinj hmoves_nd
  have hgo := ActionMapper.setActionsGo_of_nodup m hdesc moves 0 ([], [])
    hwf hnd (fun a _ => rfl)
  have hfold := alistFoldlInsert_of_fresh
    (moves.map fun a => (a.ref, ActionMapper.candidateId a)) []
    (fun kv _ => rfl) (by simpa [Function.comp] using hrefs_nd)
  have hi2a : (m.set_actions moves).id_to_action =
      moves.map fun a => (ActionMapper.candidateId a, a) := by
    rw [ActionMapper.set_actions]
    simp [hgo]
  have ha2i : (m.set_actions moves).action_to_id =
      moves.map fun a => (a.ref, ActionMapper.candidateId a) := by
    rw [ActionMapper.set_actions]
    simp [hgo, hfold]
  refine ⟨?_, ?_, ?_⟩
  · rw [ActionMapper.get_all_action_ids, hi2a, alistKeys]
    simp
  · rw [ActionMapper.get_all_action_ids, hi2a, alistKeys]
    simpa [Function.comp] using hnd
  · intro a ha
    refine ⟨ActionMapper.candidateId a, ?_, ?_⟩
    · rw [ActionMapper.get_action_id, ha2i]
      exact alistGet_map_of_nodup Action.ref ActionMapper.candidateId moves a hrefs_nd ha
    · rw [ActionMapper.get_action, hi2a]
      exact alistGet_map_of_nodup ActionMapper.candidateId id moves a hnd ha

/-- C5, witness on a concrete two-move list with distinct candidates. -/
theorem claim_C5_witness :
    (ActionMapper.set_actions {} [buildSettlement42, endTurnA]).get_all_action_ids.length
      = 2 ∧
    ∃ actionId,
      (ActionMapper.set_actions {} [buildSettlement42, endTurnA]).get_action_id
        buildSettlement42 = some actionId ∧
      (ActionMapper.set_actions {} [buildSettlement42, endTurnA]).get_action actionId
        = some buildSettlement42 := by
  have h := claim_C5 {} [buildSettlement42, endTurnA] rfl (by decide) (by decide)
    (by decide)
  exact ⟨h.1, h.2.2 buildSettlement42 (by decide)⟩

/-- C6, counterexample: calling set_actions a second time with a fresh
END_TURN move regenerates the id end_turn of the first call, so that stale
id still resolves (to the new move) instead of returning NotFound as the
claim states. -/
theorem claim_C6_counterexample :
    (ActionMapper.set_actions {} [endTurnA]).get_all_action_ids = ["end_turn"] ∧
    ((ActionMapper.set_actions {} [endTurnA]).set_actions [endTurnNew]).get_action
      "end_turn" = some endTurnNew := by
  decide

/-- C6, amended: after a second set_actions call the mapping is fully
replaced, so an id generated by the first call either no longer resolves
or resolves to a move of the second list (when the second call regenerated
the same id string); it never resolves to a move exclusive to the first
list. -/
theorem claim_C6_amended (m : ActionMapper) (l1 l2 : List Action)
    (actionId : String)
    (_hfirst : actionId ∈ (m.set_actions l1).get_all_action_ids) :
    ((m.set_actions l1).set_actions l2).get_action actionId = none ∨
    ∃ b ∈ l2, ((m.set_actions l1).set_actions l2).get_action actionId = some b := by
  cases hb : ((m.set_actions l1).set_actions l2).get_action actionId with
  | none => exact Or.inl rfl
  | some b =>
      refine Or.inr ⟨b, ?_, rfl⟩
      refine ActionMapper.setActionsGo_values (m.set_actions l1) (· ∈ l2) l2 0
        ([], []) ?_ (fun x hx => hx) actionId b ?_
      · intro k v hkv; cases hkv
      · exact hb

/-- C6, witness: the amended statement at the concrete counterexample
inputs, where the stale id resolves into the second list. -/
theorem claim_C6_amended_witness :
    ((ActionMapper.set_actions {} [endTurnA]).set_actions [endTurnNew]).get_action
      "end_turn" = none ∨
    ∃ b ∈ [endTurnNew],
      ((ActionMapper.set_actions {} [endTurnA]).set_actions [endTurnNew]).get_action
        "end_turn" = some b :=
  claim_C6_amended {} [endTurnA] [endTurnNew] "end_turn" (by decide)

/-- C10: id generation is total over malformed action objects: when
attribute access raises (the try block of _descriptive_action_id fails),
the generator returns the positional fallback id action_<index>, and
set_actions completes on any list regardless of malformed members. -/
theorem claim_C10 (a : Action) (i : Nat) (l : List (String × Action))
    (h : a.malformed = true) :
    ActionMapper.descriptiveCore a = .error () ∧
    ActionMapper._descriptive_action_id a i l = "action_" ++ toString i ∧
    ∀ (m : ActionMapper) (moves : List Action),
      (m.set_actions moves).actions = moves := by
  refine ⟨?_, ?_, ?_⟩
  · simp [ActionMapper.descriptiveCore, h]
  · simp [ActionMapper._descriptive_action_id, ActionMapper.descriptiveCore, h]
  · intro m moves
    rfl

/-- C10, witness at a concrete malformed action. -/
theorem claim_C10_witness :
    ActionMapper._descriptive_action_id brokenAction 4 [] = "action_4" :=
  (claim_C10 brokenAction 4 [] (by decide)).2.1

/-! ### Dispatcher preservation lemmas -/

namespace MCPServer

/-- Tool calls never change the mapping or the context: only
select_action mutates the server, and it touches only the pending
selection. -/
theorem handle_tool_call_preserves (srv : MCPServer) (n : String)
    (i : ToolInput) :
    ((srv.handle_tool_call n i).2).action_mapper = srv.action_mapper ∧
    ((srv.handle_tool_call n i).2).game_wrapper = srv.game_wrapper := by
  unfold handle_tool_call _handle_get_game_state _handle_get_valid_actions
    _handle_select_action
  repeat' split
  all_goals exact ⟨rfl, rfl⟩

/-- A tool call that is not an accepted select_action leaves the pending
selection untouched. -/
theorem handle_tool_call_selected_of_not (srv : MCPServer) (n : String)
    (i : ToolInput)
    (h : ¬(n = "select_action" ∧ srv.selectAccepted i = true)) :
    ((srv.handle_tool_call n i).2).selected_action_id =
      srv.selected_action_id := by
  unfold handle_tool_call _handle_get_game_state _handle_get_valid_actions
    _handle_select_action
  repeat' split
  all_goals try rfl
  all_goals exfalso; apply h
  all_goals constructor
  all_goals simp_all [selectAccepted]

/-- An accepted select_action records the supplied id as the pending
selection. -/
theorem handle_tool_call_selected_of_accepted (srv : MCPServer)
    (i : ToolInput) (h : srv.selectAccepted i = true) :
    ((srv.handle_tool_call "select_action" i).2).selected_action_id =
      i.action_id := by
  unfold handle_tool_call _handle_get_game_state _handle_get_valid_actions
    _handle_select_action
  repeat' split
  all_goals simp_all [selectAccepted]

/-- Acceptance of a select_action input depends only on the context flag
and the mapping, so it is stable across tool calls. -/
theorem selectAccepted_congr (s1 s2 : MCPServer) (i : ToolInput)
    (hw : s1.game_wrapper = s2.game_wrapper)
    (hm : s1.action_mapper = s2.action_mapper) :
    s1.selectAccepted i = s2.selectAccepted i := by
  unfold selectAccepted
  rw [hw, hm]

end MCPServer

/-- runCalls preserves the mapping and the context. -/
theorem runCalls_preserves (calls : List ToolCall) :
    ∀ srv : MCPServer,
      (runCalls srv calls).action_mapper = srv.action_mapper ∧
      (runCalls srv calls).game_wrapper = srv.game_wrapper := by
  induction calls with
  | nil => intro srv; exact ⟨rfl, rfl⟩
  | cons c rest ih =>
      intro srv
      have h1 := srv.handle_tool_call_preserves c.name c.input
      have h2 := ih (srv.handle_tool_call c.name c.input).2
      exact ⟨h2.1.trans h1.1, h2.2.trans h1.2⟩

/-- When no call of the list is an accepted select_action, the pending
selection survives the whole list unchanged. -/
theorem runCalls_selected_of_none (calls : List ToolCall) :
    ∀ srv : MCPServer,
      (∀ c ∈ calls,
        ¬(c.name = "select_action" ∧ srv.selectAccepted c.input = true)) →
      (runCalls srv calls).selected_action_id = srv.selected_action_id := by
  induction calls with
  | nil => intro srv _; rfl
  | cons c rest ih =>
      intro srv hno
      have hstep := srv.handle_tool_call_selected_of_not c.name c.input
        (hno c (List.mem_cons_self c rest))
      have hpres := srv.handle_tool_call_preserves c.name c.input
      have hrest := ih (srv.handle_tool_call c.name c.input).2 ?_
      · exact hrest.trans hstep
      · intro c1 hc1 hacc
        refine hno c1 (List.mem_cons_of_mem c hc1) ⟨hacc.1, ?_⟩
        rw [MCPServer.selectAccepted_congr _ srv c1.input hpres.2 hpres.1] at hacc
        exact hacc.2

/-! ### Claims about the Tool Dispatcher -/

/-- C7: a select_action call that the dispatcher does not accept (missing
or empty action_id, unknown id, or no active context) returns a structured
error object — for an unknown id one naming the currently valid id set —
and leaves the pending selection unchanged; and over any sequence of tool
calls after a fresh context, the selection is non-empty only if some call
was an accepted select_action. -/
theorem claim_C7 :
    (∀ (srv : MCPServer) (input : ToolInput),
      srv.selectAccepted input = false →
        isErrObj (srv.handle_tool_call "select_action" input).1 = true ∧
        ((srv.handle_tool_call "select_action" input).2).get_selected_action
          = srv.get_selected_action ∧
        ∀ actionId, input.action_id = some actionId → actionId ≠ "" →
          srv.game_wrapper.isSome = true →
          jsonGet (srv.handle_tool_call "select_action" input).1 "valid_action_ids"
            = some (.arr (srv.action_mapper.get_all_action_ids.map .str))) ∧
    ∀ (srv srv1 : MCPServer) (game : PyGame) (color : String)
      (moves : List Action) (calls : List ToolCall),
      srv.set_game_context game color moves = .ok srv1 →
      (runCalls srv1 calls).get_selected_action ≠ none →
      ∃ c ∈ calls, c.name = "select_action" ∧ srv1.selectAccepted c.input = true := by
  constructor
  · intro srv input hacc
    have hsel : ((srv.handle_tool_call "select_action" input).2).selected_action_id
        = srv.selected_action_id :=
      srv.handle_tool_call_selected_of_not _ _ (by simp [hacc])
    have hpres := srv.handle_tool_call_preserves "select_action" input
    refine ⟨?_, ?_, ?_⟩
    · unfold MCPServer.handle_tool_call MCPServer._handle_get_game_state
        MCPServer._handle_get_valid_actions MCPServer._handle_select_action
      repeat' split
      all_goals try (simp [isErrObj, jsonGet, alistGet]; done)
      all_goals simp_all [MCPServer.selectAccepted]
    · unfold MCPServer.get_selected_action
      rw [hsel, hpres.1]
    · intro actionId hid hne hwsome
      have hvalid : srv.action_mapper.is_valid_action_id actionId = false := by
        simp only [MCPServer.selectAccepted, hid, hwsome, Bool.true_and,
          if_neg hne] at hacc
        exact hacc
      obtain ⟨w, hw⟩ := Option.isSome_iff_exists.mp hwsome
      simp [MCPServer.handle_tool_call, hw, MCPServer._handle_select_action,
        hid, hne, hvalid, jsonGet, alistGet]
  · intro srv srv1 game color moves calls hctx hne
    by_contra hno
    push_neg at hno
    have hsel1 : srv1.selected_action_id = none := by
      unfold MCPServer.set_game_context at hctx
      cases halist : alistGet color game.state.color_to_index with
      | none => rw [halist] at hctx; cases hctx
      | some idx =>
          rw [halist] at hctx
          cases hctx
          rfl
    have hrun := runCalls_selected_of_none calls srv1 ?_
    · apply hne
      unfold MCPServer.get_selected_action
      rw [hrun, hsel1]
    · intro c hc hacc
      exact hno c hc hacc.1 hacc.2

/-- C7, witness: a select_action with an unknown id on the demo server is
rejected with an error naming the valid id set and without touching the
selection; and a call list whose selection ends non-empty contains an
accepted select_action. -/
theorem claim_C7_witness :
    (isErrObj (srvDemo.handle_tool_call "select_action"
        { action_id := some "bogus_id" }).1 = true ∧
      ((srvDemo.handle_tool_call "select_action"
        { action_id := some "bogus_id" }).2).get_selected_action
        = srvDemo.get_selected_action ∧
      jsonGet (srvDemo.handle_tool_call "select_action"
          { action_id := some "bogus_id" }).1 "valid_action_ids"
        = some (.arr (srvDemo.action_mapper.get_all_action_ids.map .str))) ∧
    ∃ c ∈ [ToolCall.mk "select_action" { action_id := some "end_turn" }],
      c.name = "select_action" ∧ srvDemo.selectAccepted c.input = true := by
  constructor
  · obtain ⟨h1, h2, h3⟩ := claim_C7.1 srvDemo { action_id := some "bogus_id" }
      (by decide)
    exact ⟨h1, h2, h3 "bogus_id" rfl (by decide) (by decide)⟩
  · refine claim_C7.2 {} srvDemo demoGame "RED" [endTurnA]
      [ToolCall.mk "select_action" { action_id := some "end_turn" }]
      rfl (by decide)

/-- C8, counterexample: on an engine build whose state has no board
attribute, get_state with include_board raises AttributeError and the
tool handler returns a structured error object — the call fails instead
of succeeding with the board key omitted. -/
theorem claim_C8_counterexample :
    isErrObj (srvNoBoard.handle_tool_call "get_game_state"
      { include_board := true }).1 = true ∧
    (jsonGet (srvNoBoard.handle_tool_call "get_game_state"
      { include_board := true }).1 "your_color").isNone = true ∧
    (jsonGet (srvNoBoard.handle_tool_call "get_game_state"
      { include_board := true }).1 "board").isNone = true := by
  refine ⟨by decide, ?_, ?_⟩ <;> rfl

/-- C8, amended: a missing optional data source never causes a key to be
omitted.  Sources read through getattr or hasattr defaults keep their key
with a default value (0 remaining development cards; empty placement
lists and a null robber inside the board section), while reading a
missing board attribute with include_board (or a missing action log, read
unguarded for turn_number) fails the whole call with a structured error
object. -/
theorem claim_C8_amended :
    (∀ (srv : MCPServer) (w : GameWrapper) (input : ToolInput),
      srv.game_wrapper = some w → w.game.state.board = none →
      input.include_board = true →
      isErrObj (srv.handle_tool_call "get_game_state" input).1 = true) ∧
    (∀ (srv : MCPServer) (w : GameWrapper) (input : ToolInput),
      srv.game_wrapper = some w → w.game.state.actions = none →
      isErrObj (srv.handle_tool_call "get_game_state" input).1 = true) ∧
    (∀ (srv : MCPServer) (w : GameWrapper) (input : ToolInput)
       (log : List String),
      srv.game_wrapper = some w → w.game.state.actions = some log →
      input.include_board = false → w.game.state.development_deck = none →
      jsonGet (srv.handle_tool_call "get_game_state" input).1
        "development_cards_remaining" = some (.num 0)) ∧
    (∀ (srv : MCPServer) (w : GameWrapper) (input : ToolInput)
       (log : List String),
      srv.game_wrapper = some w → w.game.state.actions = some log →
      input.include_board = true → w.game.state.board = some {} →
      jsonGet (srv.handle_tool_call "get_game_state" input).1 "board" =
        some (.obj [("settlements", .arr []), ("cities", .arr []),
          ("roads", .arr []), ("robber_tile", .null)])) := by
  refine ⟨?_, ?_, ?_, ?_⟩
  · intro srv w input hw hb hib
    cases hlog : w.game.state.actions with
    | none =>
        simp [MCPServer.handle_tool_call, hw, MCPServer._handle_get_game_state,
          GameWrapper.get_state, bind, Except.bind, Functor.map, Except.map, pure, Except.pure, hlog, isErrObj, jsonGet, alistGet]
    | some log =>
        simp [MCPServer.handle_tool_call, hw, MCPServer._handle_get_game_state,
          GameWrapper.get_state, bind, Except.bind, Functor.map, Except.map, pure, Except.pure, hlog, hib, GameWrapper._get_board_state, hb,
          isErrObj, jsonGet, alistGet]
  · intro srv w input hw hlog
    simp [MCPServer.handle_tool_call, hw, MCPServer._handle_get_game_state,
      GameWrapper.get_state, bind, Except.bind, Functor.map, Except.map, pure, Except.pure, hlog, isErrObj, jsonGet, alistGet]
  · intro srv w input log hw hlog hib hdeck
    cases hih : input.include_history with
    | false =>
        simp [MCPServer.handle_tool_call, hw, MCPServer._handle_get_game_state,
          GameWrapper.get_state, bind, Except.bind, Functor.map, Except.map, pure, Except.pure, hlog, hib, hih, jsonGet, alistGet,
          GameWrapper._get_dev_cards_remaining, hdeck]
    | true =>
        simp [MCPServer.handle_tool_call, hw, MCPServer._handle_get_game_state,
          GameWrapper.get_state, bind, Except.bind, Functor.map, Except.map, pure, Except.pure, hlog, hib, hih, jsonGet, alistGet,
          GameWrapper._get_dev_cards_remaining, hdeck]
  · intro srv w input log hw hlog hib hb
    cases hih : input.include_history with
    | false =>
        simp [MCPServer.handle_tool_call, hw, MCPServer._handle_get_game_state,
          GameWrapper.get_state, bind, Except.bind, Functor.map, Except.map, pure, Except.pure, hlog, hib, hih, jsonGet, alistGet,
          GameWrapper._get_board_state, hb, GameWrapper.serializePlacements,
          GameWrapper._get_robber_position]
    | true =>
        simp [MCPServer.handle_tool_call, hw, MCPServer._handle_get_game_state,
          GameWrapper.get_state, bind, Except.bind, Functor.map, Except.map, pure, Except.pure, hlog, hib, hih, jsonGet, alistGet,
          GameWrapper._get_board_state, hb, GameWrapper.serializePlacements,
          GameWrapper._get_robber_position]

/-- C8, witness for the amended theorem: the error path at the concrete
board-less server and the default paths at the demo server. -/
theorem claim_C8_amended_witness :
    isErrObj (srvNoBoard.handle_tool_call "get_game_state"
      { include_board := true }).1 = true ∧
    jsonGet (srvNoBoard.handle_tool_call "get_game_state" {}).1
      "development_cards_remaining" = some (.num 0) ∧
    jsonGet (srvDemo.handle_tool_call "get_game_state"
      { include_board := true }).1 "board" =
      some (.obj [("settlements", .arr []), ("cities", .arr []),
        ("roads", .arr []), ("robber_tile", .null)]) := by
  refine ⟨?_, ?_, ?_⟩
  · exact claim_C8_amended.1 srvNoBoard
      { game := noBoardGame, player_color := "RED", player_index := 0 }
      { include_board := true } rfl rfl rfl
  · exact claim_C8_amended.2.2.1 srvNoBoard
      { game := noBoardGame, player_color := "RED", player_index := 0 }
      {} [] rfl rfl rfl rfl
  · exact claim_C8_amended.2.2.2 srvDemo
      { game := demoGame, player_color := "RED", player_index := 0 }
      { include_board := true } [] rfl rfl rfl rfl

/-! ### Claims about the negotiation round loop -/

/-- A round containing a select_action call always reports the early
stop, whether or not the dispatcher accepted the selection. -/
theorem processCalls_stops (calls : List ToolCall) :
    ∀ srv : MCPServer, (∃ c ∈ calls, c.name = "select_action") →
      (processCalls srv calls).2 = true := by
  induction calls with
  | nil => rintro srv ⟨c, hc, -⟩; cases hc
  | cons c rest ih =>
      rintro srv ⟨c1, hc1, hname⟩
      by_cases hc : c.name = "select_action"
      · simp [processCalls, hc]
      · rcases List.mem_cons.mp hc1 with h | h
        · exact absurd (h ▸ hname) hc
        · simp only [processCalls, if_neg hc]
          exact ih _ ⟨c1, h, hname⟩

/-- The calls that follow the first select_action of a round are never
executed: the server effect of the round is exactly that of the
preceding calls plus the select_action itself. -/
theorem processCalls_skips_rest (pre : List ToolCall) :
    ∀ (srv : MCPServer) (c : ToolCall) (rest : List ToolCall),
      (∀ x ∈ pre, x.name ≠ "select_action") → c.name = "select_action" →
      processCalls srv (pre ++ c :: rest) = (runCalls srv (pre ++ [c]), true) := by
  induction pre with
  | nil =>
      intro srv c rest _ hc
      simp [processCalls, hc, runCalls]
  | cons p t ih =>
      intro srv c rest hpre hc
      have hp : p.name ≠ "select_action" := hpre p (List.mem_cons_self p t)
      simp only [List.cons_append, processCalls, if_neg hp, runCalls]
      exact ih _ c rest (fun x hx => hpre x (List.mem_cons_of_mem p hx)) hc

/-- C3, counterexample: a round whose select_action the dispatcher
rejects (unknown id, error object returned) still ends the negotiation at
once: the loop returns after round one with an empty selection even
though the next round would have issued an accepted select_action.  The
claimed keep-the-remaining-rounds behavior does not hold. -/
theorem claim_C3_counterexample :
    isErrObj (srvDemo.handle_tool_call "select_action"
      { action_id := some "bogus_id" }).1 = true ∧
    (query_llm_with_mcp rejectScript srvDemo).roundsUsed = 1 ∧
    (query_llm_with_mcp rejectScript srvDemo).server.selected_action_id = none ∧
    (runCalls srvDemo
      [ToolCall.mk "select_action" { action_id := some "end_turn" }]).selected_action_id
      = some "end_turn" := by
  exact ⟨by decide, by decide, by decide, by decide⟩

/-- C3, amended: the round loop stops early exactly when a select_action
tool call is executed, accepted or not: the loop returns in the first
round whose response contains a select_action call, and the calls after
the first select_action of that round (and all further rounds) are
skipped.  A rejected select_action therefore also ends the negotiation,
and the decision falls back. -/
theorem claim_C3_amended (script : Nat → ApiResponse) (srv : MCPServer)
    (turn fuel inTok outTok : Nat) (calls : List ToolCall)
    (content : Option String) (pt ct : Nat) (fr : String)
    (hresp : script turn = .reply calls content pt ct fr)
    (hsel : ∃ c ∈ calls, c.name = "select_action") :
    (queryLoop script srv turn (fuel + 1) inTok outTok).server
      = (processCalls srv calls).1 ∧
    (queryLoop script srv turn (fuel + 1) inTok outTok).roundsUsed = turn + 1 ∧
    ∀ pre c rest, calls = pre ++ c :: rest →
      (∀ x ∈ pre, x.name ≠ "select_action") → c.name = "select_action" →
      (processCalls srv calls).1 = runCalls srv (pre ++ [c]) := by
  have hne : calls ≠ [] := by
    rintro rfl
    rcases hsel with ⟨c, hc, -⟩
    cases hc
  have hstop := processCalls_stops calls srv hsel
  refine ⟨?_, ?_, ?_⟩
  · simp [queryLoop, hresp, hne, hstop]
  · simp [queryLoop, hresp, hne, hstop]
  · intro pre c rest hdecomp hpre hc
    rw [hdecomp, processCalls_skips_rest pre srv c rest hpre hc]

/-- C3, witness for the amended theorem at the concrete rejecting
script. -/
theorem claim_C3_amended_witness :
    (queryLoop rejectScript srvDemo 0 10 0 0).server
      = (processCalls srvDemo
          [ToolCall.mk "select_action" { action_id := some "bogus_id" }]).1 ∧
    (queryLoop rejectScript srvDemo 0 10 0 0).roundsUsed = 1 ∧
    (processCalls srvDemo
        [ToolCall.mk "select_action" { action_id := some "bogus_id" }]).1
      = runCalls srvDemo
          [ToolCall.mk "select_action" { action_id := some "bogus_id" }] := by
  have h := claim_C3_amended rejectScript srvDemo 0 9 0 0
    [ToolCall.mk "select_action" { action_id := some "bogus_id" }]
    (some "first try") 5 3 "tool_calls" rfl
    ⟨ToolCall.mk "select_action" { action_id := some "bogus_id" },
      List.mem_cons_self _ _, rfl⟩
  exact ⟨h.1, h.2.1,
    h.2.2 [] (ToolCall.mk "select_action" { action_id := some "bogus_id" }) []
      rfl (by intro x hx; cases hx) rfl⟩

/-! ### Claims about the decision entry point -/

/-- Inversion of a successful set_game_context: the mapping is rebuilt
from the supplied moves, the selection is reset, and a context is
active. -/
theorem set_game_context_inv (srv : MCPServer) (game : PyGame)
    (color : String) (moves : List Action) (srv1 : MCPServer)
    (h : srv.set_game_context game color moves = .ok srv1) :
    srv1.action_mapper = srv.action_mapper.set_actions moves ∧
    srv1.selected_action_id = none ∧
    srv1.game_wrapper.isSome = true := by
  unfold MCPServer.set_game_context at h
  cases halist : alistGet color game.state.color_to_index with
  | none => rw [halist] at h; cases h
  | some idx =>
      rw [halist] at h
      injection h with h1
      subst h1
      exact ⟨rfl, rfl, rfl⟩

/-- After a fresh context over the supplied moves, whatever selection the
tool calls produced resolves to a move of that list. -/
theorem selection_in_moves (srv : MCPServer) (game : PyGame)
    (color : String) (moves : List Action) (srv1 : MCPServer)
    (calls : List ToolCall) (a : Action)
    (hctx : srv.set_game_context game color moves = .ok srv1)
    (hsel : (runCalls srv1 calls).get_selected_action = some a) :
    a ∈ moves := by
  obtain ⟨hm, -, -⟩ := set_game_context_inv srv game color moves srv1 hctx
  have hmap := (runCalls_preserves calls srv1).1
  unfold MCPServer.get_selected_action at hsel
  cases hid : (runCalls srv1 calls).selected_action_id with
  | none => rw [hid] at hsel; cases hsel
  | some actionId =>
      rw [hid] at hsel
      dsimp only at hsel
      by_cases hemp : actionId = ""
      · rw [if_pos hemp] at hsel; cases hsel
      · rw [if_neg hemp] at hsel
        unfold ActionMapper.get_action at hsel
        rw [hmap, hm] at hsel
        refine ActionMapper.setActionsGo_values srv.action_mapper (· ∈ moves)
          moves 0 ([], []) ?_ (fun x hx => hx) actionId a hsel
        intro k v hkv; cases hkv

/-- random.choice on a non-empty list returns an element of the list. -/
theorem fallback_mem (moves : List Action) (r : Nat) (h : moves ≠ []) :
    ∃ a, _fallback_action moves r = some a ∧ a ∈ moves := by
  unfold _fallback_action
  rw [if_neg (by simpa [List.isEmpty_iff] using h)]
  have hlt : r % moves.length < moves.length :=
    Nat.mod_lt _ (List.length_pos.mpr h)
  exact ⟨moves.get ⟨r % moves.length, hlt⟩, by simp [List.get?_eq_get hlt],
    List.get_mem _ _ _⟩

/-- C1: for every call to decide with a non-empty legal-move list and any
query behavior (any tool calls, raising or not) and any random draw, the
call returns a move of the supplied list, and whenever the fallback path
is taken the returned move is exactly the one random.choice picked from
the originally supplied list; the decision never yields no move. -/
theorem claim_C1 (p : PlayerState) (srv : MCPServer) (game : PyGame)
    (moves : List Action) (q : QueryBehavior) (r : Nat)
    (hne : moves ≠ []) :
    ∃ a, (decide p srv game moves q r).result = some a ∧ a ∈ moves ∧
      ((decide p srv game moves q r).fellBack = true →
        _fallback_action moves r = some a) := by
  cases hctx : srv.set_game_context game p.color moves with
  | error e =>
      obtain ⟨a, hfa, hmem⟩ := fallback_mem moves r hne
      exact ⟨a, by simp [decide, hctx, hfa], hmem, fun _ => hfa⟩
  | ok srv1 =>
      by_cases hr : q.raises = true
      · obtain ⟨a, hfa, hmem⟩ := fallback_mem moves r hne
        exact ⟨a, by simp [decide, hctx, hr, hfa], hmem, fun _ => hfa⟩
      · cases hsel : (runCalls srv1 q.calls).get_selected_action with
        | some a =>
            refine ⟨a, by simp [decide, hctx, hr, hsel], ?_, ?_⟩
            · exact selection_in_moves srv game p.color moves srv1 q.calls a
                hctx hsel
            · intro hfb
              simp [decide, hctx, hr, hsel] at hfb
        | none =>
            obtain ⟨a, hfa, hmem⟩ := fallback_mem moves r hne
            exact ⟨a, by simp [decide, hctx, hr, hsel, hfa], hmem, fun _ => hfa⟩

/-- C1, witness: the concrete no-selection run falls back to the only
legal move. -/
theorem claim_C1_witness :
    ∃ a, (decide pRed {} demoGame [endTurnA] qNothing 0).result = some a ∧
      a ∈ [endTurnA] ∧
      ((decide pRed {} demoGame [endTurnA] qNothing 0).fellBack = true →
        _fallback_action [endTurnA] 0 = some a) :=
  claim_C1 pRed {} demoGame [endTurnA] qNothing 0 (by decide)

/-- C2, counterexample: when the subclass query raises, decide returns a
fallback move from its except branch without ever calling clear_context:
the clear count is zero, not one, and the dispatcher context is still set
when the call returns. -/
theorem claim_C2_counterexample :
    (decide pRed {} demoGame [endTurnA] qRaise 0).clearCalls = 0 ∧
    (decide pRed {} demoGame [endTurnA] qRaise 0).server.game_wrapper.isSome
      = true ∧
    (decide pRed {} demoGame [endTurnA] qRaise 0).result = some endTurnA := by
  exact ⟨by decide, by decide, by decide⟩

/-- C2, amended: clear_context is called exactly once on every decision
that completes without an exception (and the dispatcher then ends Idle,
with no context and no pending selection); but when an exception is
raised in the body, decide returns the fallback move without calling
clear_context, leaving the context set. -/
theorem claim_C2_amended (p : PlayerState) (srv : MCPServer) (game : PyGame)
    (moves : List Action) (q : QueryBehavior) (r : Nat) (srv1 : MCPServer)
    (hctx : srv.set_game_context game p.color moves = .ok srv1) :
    (q.raises = false → moves ≠ [] →
      (decide p srv game moves q r).clearCalls = 1 ∧
      (decide p srv game moves q r).server.game_wrapper = none ∧
      (decide p srv game moves q r).server.selected_action_id = none) ∧
    (q.raises = true →
      (decide p srv game moves q r).clearCalls = 0 ∧
      (decide p srv game moves q r).server.game_wrapper.isSome = true) := by
  obtain ⟨-, -, hwsome⟩ := set_game_context_inv srv game p.color moves srv1 hctx
  constructor
  · intro hr hne
    cases hsel : (runCalls srv1 q.calls).get_selected_action with
    | some a =>
        refine ⟨?_, ?_, ?_⟩ <;>
          simp [decide, hctx, hr, hsel, MCPServer.clear_context]
    | none =>
        obtain ⟨a, hfa, -⟩ := fallback_mem moves r hne
        refine ⟨?_, ?_, ?_⟩ <;>
          simp [decide, hctx, hr, hsel, hfa, MCPServer.clear_context]
  · intro hr
    have hwrap := (runCalls_preserves q.calls srv1).2
    constructor
    · simp [decide, hctx, hr]
    · simp [decide, hctx, hr, hwrap, hwsome]

/-- C2, witness for the amended theorem: one clear on the clean run, zero
on the raising run. -/
theorem claim_C2_amended_witness :
    ((decide pRed {} demoGame [endTurnA] qNothing 0).clearCalls = 1 ∧
      (decide pRed {} demoGame [endTurnA] qNothing 0).server.game_wrapper
        = none ∧
      (decide pRed {} demoGame [endTurnA] qNothing 0).server.selected_action_id
        = none) ∧
    ((decide pRed {} demoGame [endTurnA] qRaise 0).clearCalls = 0 ∧
      (decide pRed {} demoGame [endTurnA] qRaise 0).server.game_wrapper.isSome
        = true) :=
  ⟨(claim_C2_amended pRed {} demoGame [endTurnA] qNothing 0 srvDemo rfl).1
      rfl (by decide),
   (claim_C2_amended pRed {} demoGame [endTurnA] qRaise 0 srvDemo rfl).2 rfl⟩

/-- C9, counterexample: decide returns the bare move, not a record with a
fellBack field: a genuine accepted selection and a fallback random pick
of the same move return identical values, so the returned value cannot
report whether the fallback was used. -/
theorem claim_C9_counterexample :
    (decide pRed {} demoGame [endTurnA] qSelect 0).result =
      (decide pRed {} demoGame [endTurnA] qNothing 0).result ∧
    (decide pRed {} demoGame [endTurnA] qSelect 0).fellBack = false ∧
    (decide pRed {} demoGame [endTurnA] qNothing 0).fellBack = true := by
  exact ⟨by decide, by decide, by decide⟩

/-- C9, amended: decide returns only the selected move to the engine
(the accepted selection when there is one, otherwise the random
fallback); whether the fallback was used is internal control flow that is
logged, not part of the returned value, and usage accumulates into the
player state rather than being returned. -/
theorem claim_C9_amended (p : PlayerState) (srv : MCPServer) (game : PyGame)
    (moves : List Action) (q : QueryBehavior) (r : Nat) (srv1 : MCPServer)
    (hctx : srv.set_game_context game p.color moves = .ok srv1)
    (hr : q.raises = false) :
    (decide p srv game moves q r).result =
      (match (runCalls srv1 q.calls).get_selected_action with
       | some a => some a
       | none => _fallback_action moves r) ∧
    (decide p srv game moves q r).fellBack =
      ((runCalls srv1 q.calls).get_selected_action).isNone ∧
    (decide p srv game moves q r).player.total_tokens =
      p.total_tokens + q.tokens := by
  cases hsel : (runCalls srv1 q.calls).get_selected_action with
  | some a =>
      refine ⟨?_, ?_, ?_⟩ <;> simp [decide, hctx, hr, hsel, pushRecent]
  | none =>
      cases hfa : _fallback_action moves r with
      | none => refine ⟨?_, ?_, ?_⟩ <;> simp [decide, hctx, hr, hsel, hfa]
      | some a =>
          refine ⟨?_, ?_, ?_⟩ <;>
            simp [decide, hctx, hr, hsel, hfa, pushRecent]

/-- C9, witness for the amended theorem at the selecting run. -/
theorem claim_C9_amended_witness :
    (decide pRed {} demoGame [endTurnA] qSelect 0).result =
      (match (runCalls srvDemo qSelect.calls).get_selected_action with
       | some a => some a
       | none => _fallback_action [endTurnA] 0) ∧
    (decide pRed {} demoGame [endTurnA] qSelect 0).fellBack =
      ((runCalls srvDemo qSelect.calls).get_selected_action).isNone ∧
    (decide pRed {} demoGame [endTurnA] qSelect 0).player.total_tokens =
      pRed.total_tokens + qSelect.tokens :=
  claim_C9_amended pRed {} demoGame [endTurnA] qSelect 0 srvDemo rfl rfl

end CatanArena
